import Mathlib

/-!
Shallow embedding of the go-cloud-client repository's TTL cache layer
(`src/cached_client.go`) and of the underlying Spring Cloud Config client
(`src/config.go`), with theorems checking the specification's claims.

Modelling conventions:
* `time.Time` and `time.Duration` are `Int` (int64 nanoseconds); the two
  `time.Now()` calls inside one `GetConfig` invocation are modelled as a
  single instant `now` passed to the call.
* A Go `map[string]*cacheEntry` is modelled by its observable behaviour,
  a function `String → Option CacheEntry`.
* Go pointers `*ConfigResponse` are modelled as addresses (`ConfigRef`,
  a `Nat` index) into an explicit allocation list (`Heap`); decoding a
  response body allocates a fresh address, exactly as `&configResp` does.
* The HTTP round trip (`httpClient.Do` plus status check plus JSON decode)
  is abstracted as `server : String → Except GoError ConfigResponse`,
  mapping the request URL to the decoded body or an error.
* `GetResult.fetchCalls` counts invocations of the underlying client's
  fetch during one cache call (observably 0 or 1 in the code).
-/

/-- A Go `error` value, carrying its message. -/
structure GoError where
  msg : String
deriving DecidableEq, Repr

/-- A Go `interface\x7b\x7d` value as it appears in decoded JSON property sources. -/
inductive GoValue where
  | str : String → GoValue
  | int : Int → GoValue
  | bool : Bool → GoValue
  | null : GoValue
deriving DecidableEq, Repr

/-- `PropertySource` from `src/config.go`: one named map of properties. -/
structure PropertySource where
  Name : String
  Source : List (String × GoValue)
deriving DecidableEq, Repr

/-- `ConfigResponse` from `src/config.go`: the decoded server response. -/
structure ConfigResponse where
  Name : String := ""
  Profiles : List String := []
  Label : String := ""
  Version : String := ""
  State : String := ""
  PropertySources : List PropertySource := []
deriving DecidableEq, Repr

/-- Address of an allocated `ConfigResponse` (a Go `*ConfigResponse`). -/
abbrev ConfigRef := Nat

/-- The allocation store for `ConfigResponse` objects; addresses are indices. -/
structure Heap where
  objs : List ConfigResponse
deriving DecidableEq, Repr

/-- The identity-relevant fields of `AppClient` from `src/config.go`. -/
structure AppClient where
  BaseURL : String
  ApplicationName : String
  Profile : String
deriving DecidableEq, Repr

/-- Abstraction of the HTTP round trip: request URL to decoded body or error. -/
abbrev Server := String → Except GoError ConfigResponse

/-- Result of `AppClient.GetConfig`: the fetch outcome, the (possibly mutated)
client, and the heap after any allocation. -/
structure FetchResult where
  res : Except GoError ConfigRef
  client : AppClient
  heap : Heap

/-- `AppClient.GetConfig` from `src/config.go` (lines 100-148). It takes no
identity arguments: it requires `ApplicationName` to be non-empty, sets
`ApplicationName` (sic) to `"default"` when `Profile` is empty, builds the URL
`\x7bBaseURL\x7d/\x7bApplicationName\x7d/\x7bProfile\x7d` (the label never
appears), performs the request, and on success allocates and returns a pointer
to the decoded response. -/
def AppClient.GetConfig (c : AppClient) (server : Server) (h : Heap) : FetchResult :=
  if c.ApplicationName = "" then
    ⟨.error ⟨"application name is required"⟩, c, h⟩
  else
    let c := if c.Profile = "" then { c with ApplicationName := "default" } else c
    let url := c.BaseURL ++ "/" ++ c.ApplicationName ++ "/" ++ c.Profile
    match server url with
    | .error e => ⟨.error e, c, h⟩
    | .ok resp => ⟨.ok h.objs.length, c, ⟨h.objs ++ [resp]⟩⟩

/-- `cacheEntry` from `src/cached_client.go`: a pointer to the cached
configuration and its expiry instant. -/
structure CacheEntry where
  config : ConfigRef
  expiresAt : Int
deriving DecidableEq, Repr

/-- `CachedClient` from `src/cached_client.go` (the mutex is immaterial to the
sequential semantics modelled here). -/
structure CachedClient where
  client : AppClient
  cache : String → Option CacheEntry
  defaultTTL : Int

/-- `5 * time.Minute` in nanoseconds. -/
def fiveMinutes : Int := 5 * 60 * 1000000000

/-- `NewCachedClient` from `src/cached_client.go` (lines 23-33). -/
def NewCachedClient (client : AppClient) (defaultTTL : Int) : CachedClient :=
  let ttl := if defaultTTL = 0 then fiveMinutes else defaultTTL
  { client := client, cache := fun _ => none, defaultTTL := ttl }

/-- The cache key computation `fmt.Sprintf("%s:%s:%s", application, profile,
label)` used at `src/cached_client.go` lines 37 and 76. -/
def cacheKeyOf (application profile label : String) : String :=
  application ++ ":" ++ profile ++ ":" ++ label

/-- Result of one `CachedClient.GetConfig` call. -/
structure GetResult where
  res : Except GoError ConfigRef
  cc : CachedClient
  heap : Heap
  fetchCalls : Nat

/-- The miss/expiry path of `CachedClient.GetConfig` (lines 50-64): fetch via
the underlying client; on error return it with the store untouched; on success
write the entry with `expiresAt = now + defaultTTL` and return the pointer. -/
def CachedClient.fetchAndStore (c : CachedClient) (server : Server) (now : Int)
    (cacheKey : String) (h : Heap) : GetResult :=
  let fr := c.client.GetConfig server h
  match fr.res with
  | .error e => ⟨.error e, { c with client := fr.client }, fr.heap, 1⟩
  | .ok ref =>
      ⟨.ok ref,
       { c with
         client := fr.client,
         cache := fun k =>
           if k = cacheKey then some ⟨ref, now + c.defaultTTL⟩ else c.cache k },
       fr.heap, 1⟩

/-- `CachedClient.GetConfig` from `src/cached_client.go` (lines 36-65):
compute the key, return the stored pointer on a live hit, otherwise fetch
(note: `c.client.GetConfig()` receives no identity arguments). -/
def CachedClient.GetConfig (c : CachedClient) (server : Server) (now : Int)
    (application profile label : String) (h : Heap) : GetResult :=
  let cacheKey := cacheKeyOf application profile label
  match c.cache cacheKey with
  | some entry =>
      if now < entry.expiresAt then ⟨.ok entry.config, c, h, 0⟩
      else c.fetchAndStore server now cacheKey h
  | none => c.fetchAndStore server now cacheKey h

/-- `CachedClient.ClearCache` from `src/cached_client.go` (lines 68-72). -/
def CachedClient.ClearCache (c : CachedClient) : CachedClient :=
  { c with cache := fun _ => none }

/-- `CachedClient.InvalidateCache` from `src/cached_client.go` (lines 75-80). -/
def CachedClient.InvalidateCache (c : CachedClient) (application profile label : String) :
    CachedClient :=
  let cacheKey := cacheKeyOf application profile label
  { c with cache := fun k => if k = cacheKey then none else c.cache k }

/-! Concrete fixtures used by witnesses and counterexamples. -/

/-- A client configured for identity ("otherapp", "prod"). -/
def sampleClient : AppClient := ⟨"http://cs", "otherapp", "prod"⟩

/-- A server that fails every request. -/
def serverDown : Server := fun _ => .error ⟨"connection refused"⟩

/-- A server that records the requested URL in the returned artifact's name. -/
def serverEcho : Server := fun url => .ok { Name := url }

/-- The empty heap. -/
def emptyHeap : Heap := ⟨[]⟩

/-- A cache holding a live entry for ("myapp", "dev", "master"). -/
def hitCache : CachedClient :=
  { client := sampleClient,
    cache := fun k => if k = cacheKeyOf "myapp" "dev" "master" then some ⟨0, 10⟩ else none,
    defaultTTL := 100 }

/-! Helper lemmas about the two paths of `CachedClient.GetConfig`. -/

/-- The miss path always performs exactly one underlying fetch. -/
theorem fetchAndStore_fetchCalls (c : CachedClient) (server : Server) (now : Int)
    (key : String) (h : Heap) : (c.fetchAndStore server now key h).fetchCalls = 1 := by
  unfold CachedClient.fetchAndStore
  dsimp only
  split <;> rfl

/-- The miss path on fetch error: the error is returned, the cache map and heap
are exactly the fetch result's, and only the client field may change. -/
theorem fetchAndStore_error (c : CachedClient) (server : Server) (now : Int)
    (key : String) (h : Heap) (e : GoError)
    (he : (c.client.GetConfig server h).res = .error e) :
    c.fetchAndStore server now key h =
      ⟨.error e, { c with client := (c.client.GetConfig server h).client },
       (c.client.GetConfig server h).heap, 1⟩ := by
  unfold CachedClient.fetchAndStore
  dsimp only
  rw [he]

/-- The miss path on fetch success: the fetched reference is returned and the
entry written under `key` holds that same reference with expiry `now + TTL`. -/
theorem fetchAndStore_ok (c : CachedClient) (server : Server) (now : Int)
    (key : String) (h : Heap) (ref : ConfigRef)
    (hok : (c.client.GetConfig server h).res = .ok ref) :
    c.fetchAndStore server now key h =
      ⟨.ok ref,
       { c with
         client := (c.client.GetConfig server h).client,
         cache := fun k =>
           if k = key then some ⟨ref, now + c.defaultTTL⟩ else c.cache k },
       (c.client.GetConfig server h).heap, 1⟩ := by
  unfold CachedClient.fetchAndStore
  dsimp only
  rw [hok]

/-- A live entry short-circuits `GetConfig`: the stored reference is returned
and nothing changes. -/
theorem getConfig_hit (c : CachedClient) (server : Server) (now : Int)
    (application profile label : String) (h : Heap) (entry : CacheEntry)
    (hent : c.cache (cacheKeyOf application profile label) = some entry)
    (hlive : now < entry.expiresAt) :
    c.GetConfig server now application profile label h = ⟨.ok entry.config, c, h, 0⟩ := by
  unfold CachedClient.GetConfig
  dsimp only
  rw [hent]
  exact if_pos hlive

/-- With no live entry under the key, `GetConfig` is the miss path. -/
theorem getConfig_miss (c : CachedClient) (server : Server) (now : Int)
    (application profile label : String) (h : Heap)
    (hmiss : ∀ entry, c.cache (cacheKeyOf application profile label) = some entry →
      entry.expiresAt ≤ now) :
    c.GetConfig server now application profile label h =
      c.fetchAndStore server now (cacheKeyOf application profile label) h := by
  unfold CachedClient.GetConfig
  dsimp only
  cases hc : c.cache (cacheKeyOf application profile label) with
  | none => rfl
  | some entry => exact if_neg (not_lt.mpr (hmiss entry hc))

/-! Claim theorems. -/

/-- C1 (code bug): evaluated at a concrete input, `CachedClient.GetConfig
("myapp", "dev", "master")` on a cold cache performs one fetch, but the
request URL is built solely from the underlying client's configured identity
("otherapp", "prod") — the identity triple of the call never reaches the
Fetcher (and the label is dropped entirely), so the returned artifact is the
one fetched for the client's configured identity, not for the call's triple. -/
theorem c1_fetch_ignores_call_identity :
    ((NewCachedClient sampleClient 100).GetConfig serverEcho 0
        "myapp" "dev" "master" emptyHeap).fetchCalls = 1 ∧
    ((NewCachedClient sampleClient 100).GetConfig serverEcho 0
        "myapp" "dev" "master" emptyHeap).res = .ok 0 ∧
    ((NewCachedClient sampleClient 100).GetConfig serverEcho 0
        "myapp" "dev" "master" emptyHeap).heap.objs =
      [{ Name := "http://cs/otherapp/prod" }] := by
  refine ⟨rfl, rfl, ?_⟩
  decide

/-- C2 (code bug): the key composition `cacheKeyOf` is not injective on
identity triples — the two distinct triples ("a:b", "c", "d") and
("a", "b:c", "d") produce the same lookup key "a:b:c:d". -/
theorem c2_key_collision :
    cacheKeyOf "a:b" "c" "d" = cacheKeyOf "a" "b:c" "d" ∧
    (("a:b", "c", "d") : String × String × String) ≠ ("a", "b:c", "d") := by
  constructor
  · rfl
  · decide

/-- C3: on a live hit (an entry exists under the key and `now` is strictly
before its `expiresAt`), `Get` returns that entry's value with no error,
performs zero Fetcher calls, and leaves the cache, client and heap unchanged. -/
theorem c3_live_hit_returns_cached (c : CachedClient) (server : Server) (now : Int)
    (application profile label : String) (h : Heap) (entry : CacheEntry)
    (hent : c.cache (cacheKeyOf application profile label) = some entry)
    (hlive : now < entry.expiresAt) :
    c.GetConfig server now application profile label h = ⟨.ok entry.config, c, h, 0⟩ :=
  getConfig_hit c server now application profile label h entry hent hlive

/-- Witness for C3 at a concrete live entry. -/
theorem c3_live_hit_returns_cached_witness :
    hitCache.GetConfig serverDown 5 "myapp" "dev" "master" emptyHeap =
      ⟨.ok 0, hitCache, emptyHeap, 0⟩ :=
  c3_live_hit_returns_cached hitCache serverDown 5 "myapp" "dev" "master" emptyHeap
    ⟨0, 10⟩ (by decide) (by decide)

/-- C4: on a miss (no entry, or an entry whose expiry is not after `now`) with
a successful fetch, `Get` performs exactly one Fetcher call, writes the entry
for the key with `expiresAt = now + defaultTTL` holding the fetched value,
returns that fetched value, and touches no other key; hence every entry ever
present was installed by the fetch that produced it with expiry fetch time
plus TTL (this is the only write path, and the per-call expiry is exactly
`now + defaultTTL`). -/
theorem c4_miss_fetch_success (c : CachedClient) (server : Server) (now : Int)
    (application profile label : String) (h : Heap) (ref : ConfigRef)
    (hmiss : ∀ entry, c.cache (cacheKeyOf application profile label) = some entry →
      entry.expiresAt ≤ now)
    (hok : (c.client.GetConfig server h).res = .ok ref) :
    (c.GetConfig server now application profile label h).fetchCalls = 1 ∧
    (c.GetConfig server now application profile label h).res = .ok ref ∧
    (c.GetConfig server now application profile label h).cc.cache
        (cacheKeyOf application profile label) = some ⟨ref, now + c.defaultTTL⟩ ∧
    ∀ k, k ≠ cacheKeyOf application profile label →
      (c.GetConfig server now application profile label h).cc.cache k = c.cache k := by
  rw [getConfig_miss c server now application profile label h hmiss,
      fetchAndStore_ok c server now (cacheKeyOf application profile label) h ref hok]
  refine ⟨rfl, rfl, if_pos rfl, ?_⟩
  intro k hk
  exact if_neg hk

/-- Witness for C4: a cold Get at time 0 installs the fetched artifact with
expiry `0 + defaultTTL`. -/
theorem c4_miss_fetch_success_witness :
    ((NewCachedClient sampleClient 100).GetConfig serverEcho 0
        "myapp" "dev" "master" emptyHeap).res = .ok 0 ∧
    ((NewCachedClient sampleClient 100).GetConfig serverEcho 0
        "myapp" "dev" "master" emptyHeap).cc.cache (cacheKeyOf "myapp" "dev" "master") =
      some ⟨0, 0 + (NewCachedClient sampleClient 100).defaultTTL⟩ := by
  have hc := c4_miss_fetch_success (NewCachedClient sampleClient 100) serverEcho 0
    "myapp" "dev" "master" emptyHeap 0 (by intro entry hent; cases hent) rfl
  exact ⟨hc.2.1, hc.2.2.1⟩

/-- C5: when the fetch made on a miss returns an error, `Get` returns that
error unchanged, the cache map after the call is exactly the one before it
(no entry created, no expired entry removed), exactly one fetch was attempted,
and any later `Get` on the same key at a time not earlier than `now` attempts
a fresh Fetcher call. -/
theorem c5_fetch_error_propagates (c : CachedClient) (server : Server) (now : Int)
    (application profile label : String) (h : Heap) (e : GoError)
    (hmiss : ∀ entry, c.cache (cacheKeyOf application profile label) = some entry →
      entry.expiresAt ≤ now)
    (herr : (c.client.GetConfig server h).res = .error e) :
    (c.GetConfig server now application profile label h).res = .error e ∧
    (c.GetConfig server now application profile label h).cc.cache = c.cache ∧
    (c.GetConfig server now application profile label h).fetchCalls = 1 ∧
    ∀ now2, now ≤ now2 → ∀ (server2 : Server) (h2 : Heap),
      ((c.GetConfig server now application profile label h).cc.GetConfig server2 now2
          application profile label h2).fetchCalls = 1 := by
  rw [getConfig_miss c server now application profile label h hmiss,
      fetchAndStore_error c server now (cacheKeyOf application profile label) h e herr]
  refine ⟨rfl, rfl, rfl, ?_⟩
  intro now2 hnow2 server2 h2
  rw [getConfig_miss _ server2 now2 application profile label h2
      (by intro entry hent; exact le_trans (hmiss entry hent) hnow2)]
  exact fetchAndStore_fetchCalls _ server2 now2 _ h2

/-- Witness for C5: a cold Get against a failing server returns the error and
leaves the (empty) cache empty. -/
theorem c5_fetch_error_propagates_witness :
    ((NewCachedClient sampleClient 100).GetConfig serverDown 0
        "myapp" "dev" "master" emptyHeap).res = .error ⟨"connection refused"⟩ ∧
    ((NewCachedClient sampleClient 100).GetConfig serverDown 0
        "myapp" "dev" "master" emptyHeap).cc.cache =
      (NewCachedClient sampleClient 100).cache := by
  have hc := c5_fetch_error_propagates (NewCachedClient sampleClient 100) serverDown 0
    "myapp" "dev" "master" emptyHeap ⟨"connection refused"⟩
    (by intro entry hent; cases hent) rfl
  exact ⟨hc.1, hc.2.1⟩

/-- C6: after `ClearCache` the store is empty — every key maps to nothing —
and any `Get` issued on the cleared store before other writes performs a
Fetcher call. -/
theorem c6_clear_cache_empties_store (c : CachedClient) :
    (∀ k, c.ClearCache.cache k = none) ∧
    ∀ (server : Server) (now : Int) (application profile label : String) (h : Heap),
      (c.ClearCache.GetConfig server now application profile label h).fetchCalls = 1 := by
  refine ⟨fun _ => rfl, ?_⟩
  intro server now application profile label h
  rw [getConfig_miss _ server now application profile label h
      (by intro entry hent; cases hent)]
  exact fetchAndStore_fetchCalls _ server now _ h

/-- C7: `InvalidateCache` removes exactly the entry under the computed key
(a no-op when absent), every other key's entry is unchanged, and a `Get` for
the same identity immediately afterwards performs a Fetcher call regardless of
the removed entry's prior TTL state. -/
theorem c7_invalidate_exact_key (c : CachedClient) (application profile label : String) :
    (c.InvalidateCache application profile label).cache
        (cacheKeyOf application profile label) = none ∧
    (∀ k, k ≠ cacheKeyOf application profile label →
      (c.InvalidateCache application profile label).cache k = c.cache k) ∧
    ∀ (server : Server) (now : Int) (h : Heap),
      ((c.InvalidateCache application profile label).GetConfig server now
          application profile label h).fetchCalls = 1 := by
  refine ⟨if_pos rfl, fun k hk => if_neg hk, ?_⟩
  intro server now h
  rw [getConfig_miss _ server now application profile label h
      (by intro entry hent; simp [CachedClient.InvalidateCache] at hent)]
  exact fetchAndStore_fetchCalls _ server now _ h

/-- Witness for C7, matching the spec scenario: invalidating
("other", "dev", "master") leaves the entry for ("myapp", "dev", "master")
untouched. -/
theorem c7_invalidate_exact_key_witness :
    (hitCache.InvalidateCache "other" "dev" "master").cache
        (cacheKeyOf "myapp" "dev" "master") =
      hitCache.cache (cacheKeyOf "myapp" "dev" "master") :=
  (c7_invalidate_exact_key hitCache "other" "dev" "master").2.1 _ (by decide)

/-- C8: `NewCachedClient` is a total function (construction never fails, for
any client and any TTL), the store starts empty, the given client is kept, and
the TTL equals the given duration except that a zero duration is replaced by
the 5-minute default. -/
theorem c8_construction_total (client : AppClient) (defaultTTL : Int) :
    (∀ k, (NewCachedClient client defaultTTL).cache k = none) ∧
    (NewCachedClient client defaultTTL).client = client ∧
    (defaultTTL ≠ 0 → (NewCachedClient client defaultTTL).defaultTTL = defaultTTL) ∧
    (defaultTTL = 0 → (NewCachedClient client defaultTTL).defaultTTL = fiveMinutes) := by
  refine ⟨fun _ => rfl, rfl, fun h0 => ?_, fun h0 => ?_⟩
  · show (if defaultTTL = 0 then fiveMinutes else defaultTTL) = defaultTTL
    exact if_neg h0
  · show (if defaultTTL = 0 then fiveMinutes else defaultTTL) = fiveMinutes
    exact if_pos h0

/-- Witness for C8: a nonzero TTL is kept, a zero TTL becomes 5 minutes. -/
theorem c8_construction_total_witness :
    (NewCachedClient sampleClient 7).defaultTTL = 7 ∧
    (NewCachedClient sampleClient 0).defaultTTL = fiveMinutes :=
  ⟨(c8_construction_total sampleClient 7).2.2.1 (by decide),
   (c8_construction_total sampleClient 0).2.2.2 rfl⟩

/-- C9 counterexample: a concrete cold `Get` stores an entry and returns a
reference equal to that entry's `config` reference — the caller's handle is
aliased with the `CacheEntry` kept in the store, contradicting the claim that
callers never receive a reference aliased with the stored entry. -/
theorem c9_counterexample_shared_reference :
    ∃ entry,
      ((NewCachedClient sampleClient 100).GetConfig serverEcho 0
          "myapp" "dev" "master" emptyHeap).cc.cache
          (cacheKeyOf "myapp" "dev" "master") = some entry ∧
      ((NewCachedClient sampleClient 100).GetConfig serverEcho 0
          "myapp" "dev" "master" emptyHeap).res = .ok entry.config :=
  ⟨⟨0, 0 + 100⟩, rfl, rfl⟩

/-- C9 amended: `Get` shares cached artifacts with callers by reference — on a
live hit it returns exactly the stored entry's `config` reference, and on a
successful fresh fetch the reference it returns is the very one written into
the store under the key. -/
theorem c9_amended_get_aliases_store (c : CachedClient) (server : Server) (now : Int)
    (application profile label : String) (h : Heap) :
    (∀ entry, c.cache (cacheKeyOf application profile label) = some entry →
      now < entry.expiresAt →
      (c.GetConfig server now application profile label h).res = .ok entry.config) ∧
    (∀ ref, (∀ entry, c.cache (cacheKeyOf application profile label) = some entry →
        entry.expiresAt ≤ now) →
      (c.client.GetConfig server h).res = .ok ref →
      (c.GetConfig server now application profile label h).res = .ok ref ∧
      ∃ entry, (c.GetConfig server now application profile label h).cc.cache
          (cacheKeyOf application profile label) = some entry ∧ entry.config = ref) := by
  constructor
  · intro entry hent hlive
    rw [getConfig_hit c server now application profile label h entry hent hlive]
  · intro ref hmiss hok
    rw [getConfig_miss c server now application profile label h hmiss,
        fetchAndStore_ok c server now _ h ref hok]
    exact ⟨rfl, ⟨ref, now + c.defaultTTL⟩, if_pos rfl, rfl⟩

/-- Witness for C9's amended theorem: the live hit from `hitCache` hands back
the stored entry's reference. -/
theorem c9_amended_get_aliases_store_witness :
    (hitCache.GetConfig serverDown 5 "myapp" "dev" "master" emptyHeap).res =
      .ok (0 : ConfigRef) :=
  (c9_amended_get_aliases_store hitCache serverDown 5 "myapp" "dev" "master" emptyHeap).1
    ⟨0, 10⟩ (by decide) (by decide)

/-- C10: only a TTL of exactly zero is replaced by the default, so a strictly
negative TTL is kept; for a cache with such a TTL, whenever every stored entry
is already expired at the current time, `Get` performs a Fetcher call, any
entry it writes has `expiresAt = now + ttl`, which lies strictly in the past,
and afterwards every stored entry is again expired — so no entry is ever live
and every `Get` keeps hitting the Fetcher. -/
theorem c10_negative_ttl_kept (client : AppClient) (ttl : Int) (hneg : ttl < 0) :
    (NewCachedClient client ttl).defaultTTL = ttl ∧
    ∀ (c : CachedClient), c.defaultTTL = ttl →
      ∀ (server : Server) (now : Int) (application profile label : String) (h : Heap),
        (∀ k entry, c.cache k = some entry → entry.expiresAt ≤ now) →
          (c.GetConfig server now application profile label h).fetchCalls = 1 ∧
          (∀ ref, (c.client.GetConfig server h).res = .ok ref →
            (c.GetConfig server now application profile label h).cc.cache
                (cacheKeyOf application profile label) = some ⟨ref, now + ttl⟩ ∧
            now + ttl < now) ∧
          (∀ k entry,
            (c.GetConfig server now application profile label h).cc.cache k =
              some entry → entry.expiresAt ≤ now) := by
  refine ⟨?_, ?_⟩
  · show (if ttl = 0 then fiveMinutes else ttl) = ttl
    exact if_neg (by omega)
  · intro c httl server now application profile label h hexp
    have hmiss : ∀ entry, c.cache (cacheKeyOf application profile label) = some entry →
        entry.expiresAt ≤ now := fun e he => hexp _ e he
    rw [getConfig_miss c server now application profile label h hmiss]
    cases hres : (c.client.GetConfig server h).res with
    | error e =>
        rw [fetchAndStore_error c server now _ h e hres]
        refine ⟨rfl, ?_, hexp⟩
        intro ref hok
        cases hok
    | ok ref =>
        rw [fetchAndStore_ok c server now _ h ref hres]
        refine ⟨rfl, ?_, ?_⟩
        · intro ref2 hok
          cases hok
          dsimp only
          rw [httl]
          exact ⟨if_pos rfl, by omega⟩
        · intro k entry hent
          dsimp only at hent
          by_cases hk : k = cacheKeyOf application profile label
          · rw [if_pos hk] at hent
            cases hent
            show now + c.defaultTTL ≤ now
            rw [httl]
            omega
          · rw [if_neg hk] at hent
            exact hexp k entry hent

/-- Witness for C10: a cache built with TTL -5 keeps it, fetches on a cold
`Get`, and installs an already-expired entry. -/
theorem c10_negative_ttl_kept_witness :
    (NewCachedClient sampleClient (-5)).defaultTTL = -5 ∧
    ((NewCachedClient sampleClient (-5)).GetConfig serverEcho 0
        "myapp" "dev" "master" emptyHeap).fetchCalls = 1 ∧
    ((NewCachedClient sampleClient (-5)).GetConfig serverEcho 0
        "myapp" "dev" "master" emptyHeap).cc.cache
        (cacheKeyOf "myapp" "dev" "master") = some ⟨0, 0 + -5⟩ := by
  have hc := c10_negative_ttl_kept sampleClient (-5) (by decide)
  have hg := hc.2 (NewCachedClient sampleClient (-5)) hc.1 serverEcho 0
    "myapp" "dev" "master" emptyHeap (by intro k entry hent; cases hent)
  exact ⟨hc.1, hg.1, (hg.2.1 0 rfl).1⟩
